import Mathlib

/-!
Verification development for the tmbc-media-app repository: a shallow
embedding of its three HTTP route handlers (directory listing, upload,
media byte-serving), of the client-side canvas watermark routines, of the
keyboard-shortcut suppression handler and of the single-playing-video
tracking, together with theorems settling the specification claims.
-/

namespace TmbcMedia

/-- Split a list of characters at every occurrence of the separator,
mirroring JavaScript `String.prototype.split` with a one-character
separator: an empty input yields one empty group, and separators at the
edges yield empty groups. -/
def splitChars (sep : Char) : List Char → List (List Char)
  | [] => [[]]
  | c :: cs =>
    let r := splitChars sep cs
    if c = sep then [] :: r
    else
      match r with
      | [] => [[c]]
      | g :: gs => (c :: g) :: gs

/-- String-level split on a one-character separator. -/
def chSplit (sep : Char) (s : String) : List String :=
  (splitChars sep s.toList).map (fun g => String.mk g)

/-- ASCII lower-casing of a string, modelling `String.prototype.toLowerCase`
on the ASCII file names the handlers deal with. -/
def lowerStr (s : String) : String := String.mk (s.toList.map Char.toLower)

/-- Model of `String.prototype.startsWith`. -/
def strStartsWith (s p : String) : Bool := List.isPrefixOf p.toList s.toList

/-- Model of a case-sensitive ends-with test on strings. -/
def strEndsWith (s p : String) : Bool := List.isSuffixOf p.toList s.toList

/-- Interleave a separator between the strings of a list. -/
def joinWith (sep : String) : List String → String
  | [] => ""
  | [x] => x
  | x :: xs => x ++ sep ++ joinWith sep xs

/-- The non-empty "/"-separated segments of a path string. -/
def splitSegs (s : String) : List String := (chSplit '/' s).filter (fun c => c ≠ "")

/-- One step of path normalisation: "." is dropped, ".." removes the last
segment kept so far (clamping at the root), anything else is kept. -/
def normStep (acc : List String) (c : String) : List String :=
  if c = "." then acc
  else if c = ".." then acc.dropLast
  else acc ++ [c]

/-- Resolve "." and ".." in a segment list, left to right. -/
def normSegs (l : List String) : List String := l.foldl normStep []

/-- Render a segment list as an absolute path string. -/
def renderAbs (segs : List String) : String := "/" ++ joinWith "/" segs

/-- Model of Node's `path.join` for an absolute base path, as the route
handlers use it: concatenate the two paths and resolve "." and ".."
segments. -/
def nodeJoin (base rel : String) : String :=
  renderAbs (normSegs (splitSegs base ++ splitSegs rel))

/-- Whether the path `file` lies inside the directory `dir`,
component-wise: the segments of `dir` are a prefix of those of `file`. -/
def isUnderB (dir file : String) : Bool :=
  List.isPrefixOf (splitSegs dir) (splitSegs file)

/-! ## The media-serving GET handler (src/app/page.tsx, second document) -/

/-- The last "."-separated component of a file name, lower-cased: the
embedding of `fileName.split('.').pop()?.toLowerCase()`. -/
def lastExt (fileName : String) : String :=
  lowerStr ((chSplit '.' fileName).getLastD "")

/-- The `imageTypes` extension table of the media GET handler. -/
def imageTypes (ext : String) : Option String :=
  if ext = "jpg" then some "image/jpeg"
  else if ext = "jpeg" then some "image/jpeg"
  else if ext = "png" then some "image/png"
  else if ext = "gif" then some "image/gif"
  else if ext = "webp" then some "image/webp"
  else if ext = "svg" then some "image/svg+xml"
  else none

/-- The `videoTypes` extension table of the media GET handler. -/
def videoTypes (ext : String) : Option String :=
  if ext = "mp4" then some "video/mp4"
  else if ext = "webm" then some "video/webm"
  else if ext = "ogg" then some "video/ogg"
  else if ext = "mov" then some "video/quicktime"
  else none

/-- Content type chosen by the media GET handler: the image table with
default image/jpeg when the type parameter equals "images", the video
table with default video/mp4 otherwise. -/
def contentTypeFor (ty fileName : String) : String :=
  if ty = "images" then (imageTypes (lastExt fileName)).getD "image/jpeg"
  else (videoTypes (lastExt fileName)).getD "video/mp4"

/-- Responses of the media GET handler: a JSON error with a status code,
or a byte payload with its Content-Type and Content-Length headers. -/
inductive MediaResponse where
  | jsonErr (status : Nat) (errMsg : String)
  | ok (contentType : String) (contentLength : Nat) (content : List Nat)
deriving DecidableEq

/-- The folder the media GET handler serves from:
`join(cwd, 'public', 'images')` when the type parameter is "images",
`join(cwd, 'public', 'videos')` otherwise. -/
def mediaFolder (cwd ty : String) : String :=
  if ty = "images" then nodeJoin (nodeJoin cwd "public") "images"
  else nodeJoin (nodeJoin cwd "public") "videos"

/-- The media GET handler of src/app/page.tsx. The filesystem is a map
from absolute normalised paths to file contents (`none` meaning the path
does not exist); query parameters are `Option String` (`none` meaning
absent), and JavaScript treats an empty string the same as an absent one
in the `!fileName || !type` guard. -/
def mediaGET (fs : String → Option (List Nat)) (cwd : String)
    (file? ty? : Option String) : MediaResponse :=
  let fileName := file?.getD ""
  let ty := ty?.getD ""
  if fileName = "" ∨ ty = "" then
    .jsonErr 400 "Missing file or type parameter"
  else
    let folderPath := mediaFolder cwd ty
    let filePath := nodeJoin folderPath fileName
    match fs filePath, strStartsWith filePath folderPath with
    | some content, true => .ok (contentTypeFor ty fileName) content.length content
    | _, _ => .jsonErr 404 "File not found"

/-! ## The file-listing GET handler (src/app/api/files/route.ts) -/

/-- Responses of the file-listing GET handler. -/
inductive FilesResponse where
  | files (names : List String)
  | jsonErr (status : Nat) (errMsg : String)
deriving DecidableEq

/-- The image-name regular expression of the listing handler,
an ends-with test on the lower-cased name for each dotted extension. -/
def imageNameTest (f : String) : Bool :=
  [".jpg", ".jpeg", ".png", ".gif", ".webp", ".svg"].any
    (fun e => strEndsWith (lowerStr f) e)

/-- The video-name regular expression of the listing handler. -/
def videoNameTest (f : String) : Bool :=
  [".mp4", ".webm", ".ogg", ".mov"].any (fun e => strEndsWith (lowerStr f) e)

/-- The folder the listing handler reads. -/
def filesFolder (cwd : String) (ty? : Option String) : String :=
  if ty? = some "images" then nodeJoin (nodeJoin cwd "public") "images"
  else nodeJoin (nodeJoin cwd "public") "videos"

/-- The GET handler of src/app/api/files/route.ts. The directory listing
is a map from folder paths to entry lists, `none` meaning `readdir`
throws. -/
def filesGET (dirs : String → Option (List String)) (cwd : String)
    (ty? : Option String) : FilesResponse :=
  match dirs (filesFolder cwd ty?) with
  | none => .jsonErr 500 "Failed to read files"
  | some entries =>
    .files (entries.filter (fun f =>
      if ty? = some "images" then imageNameTest f else videoNameTest f))

/-! ## The upload POST handler (src/unnamed/part_001) -/

/-- An uploaded file: its client-provided name and its bytes. -/
structure UploadFile where
  name : String
  content : List Nat
deriving DecidableEq

/-- Outcome of the upload POST handler: a JSON error, or a successful
write recording the directory ensured to exist, the path written, the
bytes written, and the file name echoed in the JSON response. -/
inductive UploadResponse where
  | jsonErr (status : Nat) (errMsg : String)
  | okWrite (ensuredDir : String) (path : String) (content : List Nat) (fileName : String)
deriving DecidableEq

/-- The folder the upload handler writes into. -/
def uploadFolder (cwd : String) (ty? : Option String) : String :=
  if ty? = some "images" then nodeJoin (nodeJoin cwd "public") "images"
  else nodeJoin (nodeJoin cwd "public") "videos"

/-- The POST handler of src/unnamed/part_001. `throws` models any
filesystem step of the `try` block throwing, which the handler turns into
a 500 response. -/
def uploadPOST (cwd : String) (throws : Bool) (file? : Option UploadFile)
    (ty? : Option String) : UploadResponse :=
  match file? with
  | none => .jsonErr 400 "No file provided"
  | some f =>
    if throws then .jsonErr 500 "Failed to upload file"
    else
      let folderPath := uploadFolder cwd ty?
      .okWrite folderPath (nodeJoin folderPath f.name) f.content f.name

/-! ## The document-level keydown suppression handler (src/app/page.tsx) -/

/-- The fields of a keyboard event that the handler inspects. -/
structure KeyEvent where
  key : String
  ctrlKey : Bool
  shiftKey : Bool
deriving DecidableEq

/-- The `handleKeyDown` suppression handler: `true` means the handler
calls `preventDefault` on the event; each guard mirrors one `if` of the
source, in order. -/
def handleKeyDown (e : KeyEvent) : Bool :=
  if e.ctrlKey && e.key == "s" then true
  else if e.ctrlKey && e.shiftKey && e.key == "I" then true
  else if e.key == "F12" then true
  else if e.ctrlKey && e.shiftKey && e.key == "C" then true
  else if e.ctrlKey && e.key == "u" then true
  else false

/-- The five suppressed combinations exactly as the claim lists them. -/
def suppressedCombo (e : KeyEvent) : Prop :=
  (e.ctrlKey = true ∧ e.key = "s")
  ∨ (e.ctrlKey = true ∧ e.shiftKey = true ∧ e.key = "I")
  ∨ e.key = "F12"
  ∨ (e.ctrlKey = true ∧ e.shiftKey = true ∧ e.key = "C")
  ∨ (e.ctrlKey = true ∧ e.key = "u")

/-! ## Single-playing-video tracking (handleVideoPlay, src/app/page.tsx) -/

/-- The client-side video state: the set of video elements currently in
the playing state, and the `currentlyPlayingVideoRef` tracking ref.
Video elements are identified by naturals. -/
structure PlayerState where
  playing : Finset ℕ
  tracked : Option ℕ
deriving DecidableEq

/-- Pausing a video removes it from the playing set. -/
def pauseVideo (v : ℕ) (s : PlayerState) : PlayerState :=
  ⟨s.playing.erase v, s.tracked⟩

/-- The browser puts a video into the playing state just before firing
its `play` event. -/
def browserPlay (v : ℕ) (s : PlayerState) : PlayerState :=
  ⟨insert v s.playing, s.tracked⟩

/-- The `handleVideoPlay` callback: if a different video is tracked as
currently playing, pause it first, then record the new video as the
currently playing one. -/
def handleVideoPlay (v : ℕ) (s : PlayerState) : PlayerState :=
  let s1 :=
    match s.tracked with
    | some u => if u ≠ v then pauseVideo u s else s
    | none => s
  ⟨s1.playing, some v⟩

/-- A play event on video `v`: the browser starts playback and the
`onPlay` handler invokes `handleVideoPlay`. -/
def playEvent (s : PlayerState) (v : ℕ) : PlayerState :=
  handleVideoPlay v (browserPlay v s)

/-- The initial page state: no video playing, none tracked. -/
def initPlayer : PlayerState := ⟨∅, none⟩

/-- Run a sequence of play events from the initial state. -/
def runPlays (evs : List ℕ) : PlayerState := evs.foldl playEvent initPlayer

/-- Invariant: every video in the playing state is the tracked one. -/
def trackedInv (s : PlayerState) : Prop :=
  ∀ x ∈ s.playing, s.tracked = some x

/-! ## Canvas sizing in drawImageToCanvas (src/unnamed/part_002, modal
variant, lines 499-540) -/

/-- The canvas dimensions `(canvas.width, canvas.height)` that
`drawImageToCanvas` computes from the image size and the container size.
In fullSize mode the image is fitted to the container; otherwise the
container size is used, clamped to a maximum resolution of 800 with the
scaling the source applies (dividing or multiplying by the image aspect
ratio). -/
def drawImageToCanvasDims (fullSize : Bool) (imgW imgH cw ch : ℚ) : ℚ × ℚ :=
  let imgAspect := imgW / imgH
  let containerAspect := cw / ch
  if fullSize then
    if imgAspect > containerAspect then (cw, cw / imgAspect)
    else (ch * imgAspect, ch)
  else
    if cw > 800 ∨ ch > 800 then
      if cw > ch then (800, 800 / imgAspect)
      else (800 * imgAspect, 800)
    else (cw, ch)

/-! ## The diagonal watermark tiling (src/unnamed/part_002) -/

/-- The rotation angle of the watermark text: `-Math.PI / 4`. -/
noncomputable def wmAngle : ℝ := -(Real.pi / 4)

/-- The font size the drawing routine computes from the canvas size:
`Math.max(20, Math.min(w, h) * 0.06)`. -/
noncomputable def watermarkFontSize (w h : ℝ) : ℝ := max 20 (min w h * 0.06)

/-- `stepsX`: `Math.ceil(diagonal / spacingX) + 2` with
`diagonal = Math.sqrt(w*w + h*h)` and `spacingX = textWidth * 1.5`. -/
noncomputable def wmStepsX (w h tw : ℝ) : ℤ :=
  ⌈Real.sqrt (w * w + h * h) / (tw * 1.5)⌉ + 2

/-- `stepsY`: `Math.ceil(diagonal / spacingY) + 2` with
`spacingY = textHeight * 2` and `textHeight = fontSize`. -/
noncomputable def wmStepsY (w h fs : ℝ) : ℤ :=
  ⌈Real.sqrt (w * w + h * h) / (fs * 2)⌉ + 2

/-- The x coordinate drawn for index pair `(i, j)`:
`w/2 + i*spacingX*cos(angle) - j*spacingY*sin(angle)`. -/
noncomputable def wmX (w tw fs : ℝ) (i j : ℤ) : ℝ :=
  w / 2 + (i * (tw * 1.5) * Real.cos wmAngle) - (j * (fs * 2) * Real.sin wmAngle)

/-- The y coordinate drawn for index pair `(i, j)`:
`h/2 + i*spacingX*sin(angle) + j*spacingY*cos(angle)`. -/
noncomputable def wmY (h tw fs : ℝ) (i j : ℤ) : ℝ :=
  h / 2 + (i * (tw * 1.5) * Real.sin wmAngle) + (j * (fs * 2) * Real.cos wmAngle)

/-- The set of positions at which the nested loops of the drawing routine
draw the watermark text: all `(x, y)` arising from an index pair `(i, j)`
with `-stepsX ≤ i < stepsX`, `-stepsY ≤ j < stepsY` that passes the
bounds test `x > -textWidth && x < w + textWidth && y > -textHeight &&
y < h + textHeight`. -/
def watermarkPositions (w h tw fs : ℝ) : Set (ℝ × ℝ) :=
  { p | ∃ i j : ℤ,
      -(wmStepsX w h tw) ≤ i ∧ i < wmStepsX w h tw ∧
      -(wmStepsY w h fs) ≤ j ∧ j < wmStepsY w h fs ∧
      wmX w tw fs i j > -tw ∧ wmX w tw fs i j < w + tw ∧
      wmY h tw fs i j > -fs ∧ wmY h tw fs i j < h + fs ∧
      p = (wmX w tw fs i j, wmY h tw fs i j) }

/-- The tiling exactly as the claim words it: positions
`x = w/2 + i*sx*cos(-pi/4) - j*sy*sin(-pi/4)`,
`y = h/2 + i*sx*sin(-pi/4) + j*sy*cos(-pi/4)` with `sx = 1.5*tw`,
`sy = 2*fs`, for integer pairs `(i, j)` with `-stepsX ≤ i < stepsX`,
`-stepsY ≤ j < stepsY`, `stepsX = ceil(sqrt(w^2+h^2)/sx)+2`,
`stepsY = ceil(sqrt(w^2+h^2)/sy)+2`, that satisfy `-tw < x < w+tw` and
`-fs < y < h+fs`. -/
def watermarkPositionsClaim (w h tw fs : ℝ) : Set (ℝ × ℝ) :=
  { p | ∃ i j : ℤ,
      -(⌈Real.sqrt (w ^ 2 + h ^ 2) / (1.5 * tw)⌉ + 2) ≤ i ∧
      i < ⌈Real.sqrt (w ^ 2 + h ^ 2) / (1.5 * tw)⌉ + 2 ∧
      -(⌈Real.sqrt (w ^ 2 + h ^ 2) / (2 * fs)⌉ + 2) ≤ j ∧
      j < ⌈Real.sqrt (w ^ 2 + h ^ 2) / (2 * fs)⌉ + 2 ∧
      (-tw < w / 2 + i * (1.5 * tw) * Real.cos (-(Real.pi / 4)) - j * (2 * fs) * Real.sin (-(Real.pi / 4))) ∧
      (w / 2 + i * (1.5 * tw) * Real.cos (-(Real.pi / 4)) - j * (2 * fs) * Real.sin (-(Real.pi / 4)) < w + tw) ∧
      (-fs < h / 2 + i * (1.5 * tw) * Real.sin (-(Real.pi / 4)) + j * (2 * fs) * Real.cos (-(Real.pi / 4))) ∧
      (h / 2 + i * (1.5 * tw) * Real.sin (-(Real.pi / 4)) + j * (2 * fs) * Real.cos (-(Real.pi / 4)) < h + fs) ∧
      p = (w / 2 + i * (1.5 * tw) * Real.cos (-(Real.pi / 4)) - j * (2 * fs) * Real.sin (-(Real.pi / 4)),
           h / 2 + i * (1.5 * tw) * Real.sin (-(Real.pi / 4)) + j * (2 * fs) * Real.cos (-(Real.pi / 4))) }

/-- The watermark positions `drawImageToCanvas` composites onto the image
canvas: the drawing block is guarded by `if (watermarkText)`, so an empty
configured text draws nothing. -/
def imageWatermarkDrawn (text : String) (w h tw fs : ℝ) : Set (ℝ × ℝ) :=
  if text = "" then ∅ else watermarkPositions w h tw fs

/-- Whether the video branch of the component renders the watermark
overlay canvas above the video element: the JSX guard
`watermarkText && <canvas .../>` renders it exactly when the configured
text is non-empty. -/
def videoOverlayRendered (text : String) : Bool := text ≠ ""

/-! ## Spec-side definitions, transcribed from the claims' words, and the
concrete filesystems used by counterexamples and witnesses -/

/-- The content type as claim C7 words it: determined by the file name's
final extension in the conventional sense — the part after the last dot,
non-existent when the name contains no dot — looked up in the fixed
tables with the per-type defaults. -/
def claimContentType (ty fileName : String) : String :=
  if fileName.toList.any (fun c => c = '.') then
    if ty = "images" then (imageTypes (lastExt fileName)).getD "image/jpeg"
    else (videoTypes (lastExt fileName)).getD "video/mp4"
  else
    if ty = "images" then "image/jpeg" else "video/mp4"

/-- The image-name test as claim C5 words it: the name ends,
case-insensitively, in one of the bare extension strings, no dot
required. -/
def claimImageNameEnds (f : String) : Bool :=
  ["jpg", "jpeg", "png", "gif", "webp", "svg"].any
    (fun e => strEndsWith (lowerStr f) e)

/-- The image-name test of the amended claim C5: the name ends,
case-insensitively, in one of the extensions preceded by a dot. -/
def amendedImageNameEnds (f : String) : Bool :=
  ["jpg", "jpeg", "png", "gif", "webp", "svg"].any
    (fun e => strEndsWith (lowerStr f) ("." ++ e))

/-- The video-name test of the amended claim C5. -/
def amendedVideoNameEnds (f : String) : Bool :=
  ["mp4", "webm", "ogg", "mov"].any
    (fun e => strEndsWith (lowerStr f) ("." ++ e))

/-- A filesystem holding a sibling-named folder next to public/images:
the path-traversal witness file for claim C3. -/
def fsEvilSibling : String → Option (List Nat) :=
  fun p => if p = "/srv/public/imagesEvil/secret.jpg" then some [4, 5, 6] else none

/-- A filesystem holding a file outside public entirely, used by the
claim C4 counterexample. -/
def fsOutside : String → Option (List Nat) :=
  fun p => if p = "/srv/etc/passwd" then some [1, 2, 3] else none

/-- A filesystem holding one ordinary image, used as a witness. -/
def fsOneImage : String → Option (List Nat) :=
  fun p => if p = "/srv/public/images/a.png" then some [9, 9, 9] else none

/-- A directory listing whose images folder holds a name ending in the
letters jpg but with no dot, used by the claim C5 counterexample. -/
def dirsPhotojpg : String → Option (List String) :=
  fun p => if p = "/srv/public/images" then some ["photojpg"] else none

/-- A directory listing with one image and one stray file, witness for
the amended claim C5. -/
def dirsMixed : String → Option (List String) :=
  fun p => if p = "/srv/public/images" then some ["a.png", "b.txt"] else none

/-! ## Shared lemmas about the path model -/

theorem normSegs_append (a b : List String) :
    normSegs (a ++ b) = b.foldl normStep (normSegs a) := by
  simp [normSegs, List.foldl_append]

theorem normStep_subset (acc : List String) (c : String) :
    ∀ x ∈ normStep acc c, x ∈ acc ∨ x = c := by
  intro x hx
  by_cases h1 : c = "."
  · rw [normStep, if_pos h1] at hx
    exact Or.inl hx
  · by_cases h2 : c = ".."
    · rw [normStep, if_neg h1, if_pos h2] at hx
      exact Or.inl ((List.dropLast_sublist _).subset hx)
    · rw [normStep, if_neg h1, if_neg h2] at hx
      rcases List.mem_append.1 hx with h | h
      · exact Or.inl h
      · simp only [List.mem_singleton] at h
        exact Or.inr h

theorem mem_foldl_normStep (l : List String) :
    ∀ acc, ∀ x ∈ l.foldl normStep acc, x ∈ acc ∨ x ∈ l := by
  induction l with
  | nil =>
    intro acc x hx
    exact Or.inl hx
  | cons c l ih =>
    intro acc x hx
    rcases ih (normStep acc c) x hx with h | h
    · rcases normStep_subset acc c x h with h' | h'
      · exact Or.inl h'
      · exact Or.inr (by simp [h'])
    · exact Or.inr (List.mem_cons_of_mem _ h)

theorem mem_normSegs {l : List String} {x : String} (hx : x ∈ normSegs l) :
    x ∈ l := by
  rcases mem_foldl_normStep l [] x hx with h | h
  · simp at h
  · exact h

theorem splitChars_ne_nil (sep : Char) (l : List Char) :
    splitChars sep l ≠ [] := by
  cases l with
  | nil => simp [splitChars]
  | cons c cs =>
    simp only [splitChars]
    split
    · simp
    · split <;> simp

theorem splitChars_no_sep (sep : Char) (l : List Char) :
    ∀ g ∈ splitChars sep l, sep ∉ g := by
  induction l with
  | nil =>
    intro g hg
    simp only [splitChars, List.mem_singleton] at hg
    subst hg
    simp
  | cons c cs ih =>
    intro g hg
    simp only [splitChars] at hg
    by_cases hc : c = sep
    · rw [if_pos hc] at hg
      rcases List.mem_cons.1 hg with rfl | h
      · simp
      · exact ih g h
    · rw [if_neg hc] at hg
      rcases hr : splitChars sep cs with _ | ⟨g0, gs⟩
      · exact absurd hr (splitChars_ne_nil sep cs)
      · rw [hr] at hg
        rcases List.mem_cons.1 hg with rfl | h
        · intro hmem
          rcases List.mem_cons.1 hmem with h2 | h2
          · exact hc h2.symm
          · exact ih g0 (by rw [hr]; simp) h2
        · exact ih g (by rw [hr]; simp [h])

theorem splitChars_of_not_mem (sep : Char) (l : List Char) (h : sep ∉ l) :
    splitChars sep l = [l] := by
  induction l with
  | nil => simp [splitChars]
  | cons c cs ih =>
    have hc : ¬ c = sep := fun hc => h (by simp [hc])
    have hcs : sep ∉ cs := fun hm => h (List.mem_cons_of_mem _ hm)
    simp only [splitChars, if_neg hc, ih hcs]

theorem splitChars_append_sep (sep : Char) (xs rest : List Char) (h : sep ∉ xs) :
    splitChars sep (xs ++ sep :: rest) = xs :: splitChars sep rest := by
  induction xs with
  | nil => simp [splitChars]
  | cons c xs ih =>
    have hc : ¬ c = sep := fun hc => h (by simp [hc])
    have hxs : sep ∉ xs := fun hm => h (List.mem_cons_of_mem _ hm)
    rw [List.cons_append]
    simp only [splitChars, if_neg hc]
    rw [ih hxs]

theorem strMk_toList (s : String) : String.mk s.toList = s := rfl

theorem chSplit_joinWith (l : List String) (hne : l ≠ [])
    (h : ∀ x ∈ l, '/' ∉ x.toList) :
    splitChars '/' (joinWith "/" l).toList = l.map String.toList := by
  induction l with
  | nil => exact absurd rfl hne
  | cons x xs ih =>
    cases xs with
    | nil =>
      simp only [joinWith, List.map_cons, List.map_nil]
      exact splitChars_of_not_mem '/' x.toList (h x (by simp))
    | cons y ys =>
      have hx : '/' ∉ x.toList := h x (by simp)
      have hrest : splitChars '/' (joinWith "/" (y :: ys)).toList
          = (y :: ys).map String.toList :=
        ih (by simp) (fun z hz => h z (List.mem_cons_of_mem _ hz))
      have happ : (joinWith "/" (x :: y :: ys)).toList
          = x.toList ++ '/' :: (joinWith "/" (y :: ys)).toList := by
        show (x ++ "/" ++ joinWith "/" (y :: ys)).toList = _
        simp [String.toList, String.data_append]
      rw [happ, splitChars_append_sep '/' _ _ hx, hrest]
      simp

theorem splitSegs_renderAbs (l : List String)
    (h : ∀ x ∈ l, x ≠ "" ∧ '/' ∉ x.toList) :
    splitSegs (renderAbs l) = l := by
  have hhead : (renderAbs l).toList = '/' :: (joinWith "/" l).toList := by
    show (("/" : String) ++ joinWith "/" l).toList = _
    simp [String.toList, String.data_append]
  cases l with
  | nil =>
    simp [splitSegs, chSplit, hhead, joinWith, splitChars]
  | cons x xs =>
    have hsplit : splitChars '/' (renderAbs (x :: xs)).toList
        = [] :: (x :: xs).map String.toList := by
      rw [hhead]
      simp only [splitChars, if_pos rfl]
      rw [chSplit_joinWith (x :: xs) (by simp) (fun z hz => (h z hz).2)]
      simp
    have hmm : ∀ m : List String, (m.map String.toList).map String.mk = m := by
      intro m
      induction m with
      | nil => rfl
      | cons z zs ihm => simp only [List.map_cons, List.map_nil, strMk_toList, ihm]
    unfold splitSegs chSplit
    rw [hsplit, List.map_cons, hmm]
    rw [show String.mk ([] : List Char) = "" from rfl]
    rw [List.filter_cons]
    rw [if_neg (by decide)]
    apply List.filter_eq_self.2
    intro a ha
    simpa using (h a ha).1

theorem splitSegs_ne_empty (s : String) : ∀ x ∈ splitSegs s, x ≠ "" := by
  intro x hx
  have := (List.mem_filter.1 hx).2
  simpa using this

theorem splitSegs_no_slash (s : String) : ∀ x ∈ splitSegs s, '/' ∉ x.toList := by
  intro x hx
  have hx' := (List.mem_filter.1 hx).1
  rcases List.mem_map.1 hx' with ⟨g, hg, rfl⟩
  have hns := splitChars_no_sep '/' s.toList g hg
  simpa [String.toList] using hns

theorem foldl_normStep_no_dots (l : List String) :
    ∀ acc, (∀ x ∈ acc, x ≠ "." ∧ x ≠ "..") →
      ∀ x ∈ l.foldl normStep acc, x ≠ "." ∧ x ≠ ".." := by
  induction l with
  | nil =>
    intro acc h x hx
    exact h x hx
  | cons c l ih =>
    intro acc h x hx
    refine ih (normStep acc c) ?_ x hx
    intro z hz
    by_cases h1 : c = "."
    · rw [normStep, if_pos h1] at hz
      exact h z hz
    · by_cases h2 : c = ".."
      · rw [normStep, if_neg h1, if_pos h2] at hz
        exact h z ((List.dropLast_sublist _).subset hz)
      · rw [normStep, if_neg h1, if_neg h2] at hz
        rcases List.mem_append.1 hz with h' | h'
        · exact h z h'
        · simp only [List.mem_singleton] at h'
          subst h'
          exact ⟨h1, h2⟩

theorem normSegs_no_dots (l : List String) :
    ∀ x ∈ normSegs l, x ≠ "." ∧ x ≠ ".." :=
  foldl_normStep_no_dots l [] (by intro x hx; simp at hx)

theorem foldl_normStep_clean (l : List String)
    (hl : ∀ x ∈ l, x ≠ "." ∧ x ≠ "..") :
    ∀ acc, l.foldl normStep acc = acc ++ l := by
  induction l with
  | nil => intro acc; simp
  | cons c l ih =>
    intro acc
    have hc := hl c (by simp)
    have hstep : normStep acc c = acc ++ [c] := by
      rw [normStep, if_neg hc.1, if_neg hc.2]
    rw [List.foldl_cons, hstep,
      ih (fun x hx => hl x (List.mem_cons_of_mem _ hx))]
    simp

theorem normSegs_idem (l : List String) : normSegs (normSegs l) = normSegs l := by
  have := foldl_normStep_clean (normSegs l) (normSegs_no_dots l) []
  simpa [normSegs] using this

theorem nodeJoin_renderAbs_normSegs (l : List String) (c : String)
    (hl : ∀ x ∈ l, x ≠ "" ∧ '/' ∉ x.toList) :
    nodeJoin (renderAbs (normSegs l)) c = renderAbs (normSegs (l ++ splitSegs c)) := by
  unfold nodeJoin
  rw [splitSegs_renderAbs (normSegs l) (fun x hx => hl x (mem_normSegs hx))]
  rw [normSegs_append l (splitSegs c), normSegs_append (normSegs l) (splitSegs c),
    normSegs_idem]

/-! ## Shared lemmas about the video-play tracking -/

theorem trackedInv_playEvent {s : PlayerState} (h : trackedInv s) (v : ℕ) :
    trackedInv (playEvent s v) := by
  intro x hx
  cases ht : s.tracked with
  | none =>
    have hpl : (playEvent s v).playing = insert v s.playing := by
      simp [playEvent, handleVideoPlay, browserPlay, ht]
    have htr : (playEvent s v).tracked = some v := by
      simp [playEvent, handleVideoPlay, browserPlay, ht]
    rw [hpl] at hx
    rw [htr]
    rcases Finset.mem_insert.1 hx with rfl | hmem
    · rfl
    · have := h x hmem
      rw [ht] at this
      cases this
  | some u =>
    have htr : (playEvent s v).tracked = some v := by
      by_cases huv : u = v <;>
        simp [playEvent, handleVideoPlay, browserPlay, pauseVideo, ht, huv]
    rw [htr]
    by_cases huv : u = v
    · have hpl : (playEvent s v).playing = insert v s.playing := by
        simp [playEvent, handleVideoPlay, browserPlay, pauseVideo, ht, huv]
      rw [hpl] at hx
      rcases Finset.mem_insert.1 hx with rfl | hmem
      · rfl
      · have := h x hmem
        rw [ht] at this
        rw [huv] at this
        exact this
    · have hpl : (playEvent s v).playing = (insert v s.playing).erase u := by
        simp [playEvent, handleVideoPlay, browserPlay, pauseVideo, ht, huv]
      rw [hpl] at hx
      have hxu : x ≠ u := Finset.ne_of_mem_erase hx
      rcases Finset.mem_insert.1 (Finset.mem_of_mem_erase hx) with rfl | hmem
      · rfl
      · have := h x hmem
        rw [ht] at this
        exact absurd (Option.some.inj this).symm hxu

theorem trackedInv_card {s : PlayerState} (h : trackedInv s) :
    s.playing.card ≤ 1 := by
  apply Finset.card_le_one.2
  intro a ha b hb
  have h1 := h a ha
  have h2 := h b hb
  exact Option.some.inj (h1.symm.trans h2)

theorem trackedInv_runPlays (evs : List ℕ) : trackedInv (runPlays evs) := by
  have hgen : ∀ s, trackedInv s → trackedInv (evs.foldl playEvent s) := by
    induction evs with
    | nil => intro s h; exact h
    | cons v evs ih => intro s h; exact ih _ (trackedInv_playEvent h v)
  refine hgen initPlayer ?_
  intro x hx
  simp [initPlayer] at hx

theorem nodeJoin_public_sub (cwd sub name : String)
    (hsub : sub ≠ "" ∧ '/' ∉ sub.toList) (hsplit : splitSegs sub = [sub]) :
    nodeJoin (nodeJoin (nodeJoin cwd "public") sub) name
      = renderAbs (normSegs ((splitSegs cwd ++ ["public", sub]) ++ splitSegs name)) := by
  have hcwd : ∀ x ∈ splitSegs cwd, x ≠ "" ∧ '/' ∉ x.toList :=
    fun x hx => ⟨splitSegs_ne_empty cwd x hx, splitSegs_no_slash cwd x hx⟩
  have h1 : nodeJoin cwd "public" = renderAbs (normSegs (splitSegs cwd ++ ["public"])) := by
    rw [nodeJoin, show splitSegs "public" = ["public"] from by decide]
  have hclean1 : ∀ x ∈ splitSegs cwd ++ ["public"], x ≠ "" ∧ '/' ∉ x.toList := by
    intro x hx
    rcases List.mem_append.1 hx with h | h
    · exact hcwd x h
    · simp only [List.mem_singleton] at h
      subst h
      exact ⟨by decide, by decide⟩
  have h2 : nodeJoin (nodeJoin cwd "public") sub
      = renderAbs (normSegs ((splitSegs cwd ++ ["public"]) ++ [sub])) := by
    rw [h1, nodeJoin_renderAbs_normSegs _ _ hclean1, hsplit]
  have hclean2 : ∀ x ∈ (splitSegs cwd ++ ["public"]) ++ [sub], x ≠ "" ∧ '/' ∉ x.toList := by
    intro x hx
    rcases List.mem_append.1 hx with h | h
    · exact hclean1 x h
    · simp only [List.mem_singleton] at h
      subst h
      exact hsub
  rw [h2, nodeJoin_renderAbs_normSegs _ _ hclean2]
  congr 2
  simp

/-! ## The claims -/

/-- Claim C3 (code_bug): the media GET handler is claimed never to serve
a file outside the designated folder, but its guard is a plain string
`startsWith` with no trailing separator, so a request for
`../imagesEvil/secret.jpg` under type images resolves to a sibling
directory of public/images, passes the guard, and is served: the handler
returns the file's bytes although the path is not inside public/images. -/
theorem media_get_serves_file_outside_folder :
    mediaGET fsEvilSibling "/srv" (some "../imagesEvil/secret.jpg") (some "images")
      = .ok "image/jpeg" 3 [4, 5, 6]
  ∧ nodeJoin (mediaFolder "/srv" "images") "../imagesEvil/secret.jpg"
      = "/srv/public/imagesEvil/secret.jpg"
  ∧ isUnderB (mediaFolder "/srv" "images")
      (nodeJoin (mediaFolder "/srv" "images") "../imagesEvil/secret.jpg") = false := by
  refine ⟨?_, by decide, by decide⟩
  decide

/-- Claim C4 counterexample: the handler returns 400 for a present but
empty file parameter, while the claim ties 400 exactly to absence; and
for a file parameter that resolves, via "..", to an existing file outside
the folder, the handler returns 404 although the joined path exists, while
the claim says any existing path is served. -/
theorem media_get_claim_counterexample :
    mediaGET (fun _ => none) "/srv" (some "") (some "images")
      = .jsonErr 400 "Missing file or type parameter"
  ∧ some "" ≠ (none : Option String)
  ∧ fsOutside (nodeJoin (mediaFolder "/srv" "images") "../../etc/passwd")
      = some [1, 2, 3]
  ∧ mediaGET fsOutside "/srv" (some "../../etc/passwd") (some "images")
      = .jsonErr 404 "File not found" := by
  refine ⟨by decide, by decide, by decide, ?_⟩
  decide

/-- Claim C4 (amended): the media GET handler returns 400 with error
'Missing file or type parameter' iff the file or type parameter is absent
or empty; when both are non-empty it returns 404 with 'File not found'
when the joined path does not exist, and also when the joined path exists
but fails the string prefix check against the folder; otherwise it
returns the file's bytes with Content-Length equal to the byte count. -/
theorem media_get_characterization (fs : String → Option (List Nat)) (cwd : String)
    (file? ty? : Option String) :
    (mediaGET fs cwd file? ty? = .jsonErr 400 "Missing file or type parameter"
      ↔ (file?.getD "" = "" ∨ ty?.getD "" = ""))
  ∧ (¬ (file?.getD "" = "" ∨ ty?.getD "" = "") →
      (fs (nodeJoin (mediaFolder cwd (ty?.getD "")) (file?.getD "")) = none →
        mediaGET fs cwd file? ty? = .jsonErr 404 "File not found")
    ∧ (∀ content,
        fs (nodeJoin (mediaFolder cwd (ty?.getD "")) (file?.getD "")) = some content →
        strStartsWith (nodeJoin (mediaFolder cwd (ty?.getD "")) (file?.getD ""))
            (mediaFolder cwd (ty?.getD "")) = false →
        mediaGET fs cwd file? ty? = .jsonErr 404 "File not found")
    ∧ (∀ content,
        fs (nodeJoin (mediaFolder cwd (ty?.getD "")) (file?.getD "")) = some content →
        strStartsWith (nodeJoin (mediaFolder cwd (ty?.getD "")) (file?.getD ""))
            (mediaFolder cwd (ty?.getD "")) = true →
        mediaGET fs cwd file? ty?
          = .ok (contentTypeFor (ty?.getD "") (file?.getD "")) content.length content)) := by
  by_cases hempty : file?.getD "" = "" ∨ ty?.getD "" = ""
  · refine ⟨⟨fun _ => hempty, fun _ => by simp [mediaGET, hempty]⟩,
      fun hne => absurd hempty hne⟩
  · constructor
    · constructor
      · intro h400
        exfalso
        rcases hfs : fs (nodeJoin (mediaFolder cwd (ty?.getD "")) (file?.getD ""))
          with _ | content
        · simp [mediaGET, if_neg hempty, hfs] at h400
        · cases hsw : strStartsWith (nodeJoin (mediaFolder cwd (ty?.getD ""))
              (file?.getD "")) (mediaFolder cwd (ty?.getD ""))
          · simp [mediaGET, if_neg hempty, hfs, hsw] at h400
          · simp [mediaGET, if_neg hempty, hfs, hsw] at h400
      · intro hc
        exact absurd hc hempty
    · intro _
      refine ⟨?_, ?_, ?_⟩
      · intro hfs
        simp [mediaGET, if_neg hempty, hfs]
      · intro content hfs hsw
        simp [mediaGET, if_neg hempty, hfs, hsw]
      · intro content hfs hsw
        simp [mediaGET, if_neg hempty, hfs, hsw]

/-- Witness for the amended claim C4 theorem, at a concrete filesystem
holding public/images/a.png with three bytes. -/
theorem media_get_characterization_witness :
    mediaGET fsOneImage "/srv" (some "a.png") (some "images")
      = .ok "image/png" 3 [9, 9, 9] := by
  have h := ((media_get_characterization fsOneImage "/srv" (some "a.png")
    (some "images")).2 (by decide)).2.2 [9, 9, 9] (by decide) (by decide)
  exact h

/-- Claim C5 counterexample: the listing regular expressions require a
dot before the extension, so a directory entry named photojpg is not
listed although its name ends, case-insensitively, in jpg as the claim
words it. -/
theorem files_get_extension_counterexample :
    filesGET dirsPhotojpg "/srv" (some "images") = .files []
  ∧ claimImageNameEnds "photojpg" = true := by
  refine ⟨?_, by decide⟩
  decide

/-- Claim C5 (amended): GET /api/files lists exactly the directory
entries whose names end, case-insensitively, in one of the extensions
preceded by a dot (.jpg, .jpeg, .png, .gif, .webp, .svg for images; .mp4,
.webm, .ogg, .mov otherwise), in directory order, and returns 500 with
'Failed to read files' iff reading the directory fails, in which case no
names are returned. -/
theorem files_get_characterization (dirs : String → Option (List String))
    (cwd : String) (ty? : Option String) :
    (filesGET dirs cwd ty? = .jsonErr 500 "Failed to read files"
      ↔ dirs (filesFolder cwd ty?) = none)
  ∧ (∀ entries, dirs (filesFolder cwd ty?) = some entries →
      filesGET dirs cwd ty? = .files (entries.filter (fun f =>
        if ty? = some "images" then amendedImageNameEnds f
        else amendedVideoNameEnds f))) := by
  constructor
  · rcases hd : dirs (filesFolder cwd ty?) with _ | entries
    · simp [filesGET, hd]
    · simp [filesGET, hd]
  · intro entries hd
    have hrun : filesGET dirs cwd ty? = .files (entries.filter (fun f =>
        if ty? = some "images" then imageNameTest f else videoNameTest f)) := by
      simp [filesGET, hd]
    rw [hrun]
    have hfun : (fun f => if ty? = some "images" then amendedImageNameEnds f
          else amendedVideoNameEnds f)
        = (fun f => if ty? = some "images" then imageNameTest f else videoNameTest f) := by
      funext f
      by_cases h : ty? = some "images"
      · rw [if_pos h, if_pos h]
        rfl
      · rw [if_neg h, if_neg h]
        rfl
    rw [hfun]

/-- Witness for the amended claim C5 theorem, at a concrete directory
with one matching and one non-matching entry. -/
theorem files_get_characterization_witness :
    filesGET dirsMixed "/srv" (some "images") = .files ["a.png"] := by
  rw [(files_get_characterization dirsMixed "/srv" (some "images")).2
    ["a.png", "b.txt"] (by decide)]
  decide

/-- Claim C6: the upload POST handler returns 400 with 'No file provided'
when the form data holds no file; with a file it writes the file's bytes
to the type-determined folder under public (the folder it first ensures
exists), resolved against the working directory, and echoes the file name;
when a step of the try block throws it returns 500 with 'Failed to upload
file'. The last conjunct identifies the written path with the claim's
"public/images/<file.name>" (or videos) resolved as path segments. -/
theorem upload_post_characterization (cwd : String) (f : UploadFile)
    (ty? : Option String) :
    uploadPOST cwd false none ty? = .jsonErr 400 "No file provided"
  ∧ uploadPOST cwd true none ty? = .jsonErr 400 "No file provided"
  ∧ uploadPOST cwd true (some f) ty? = .jsonErr 500 "Failed to upload file"
  ∧ uploadPOST cwd false (some f) ty?
      = .okWrite (uploadFolder cwd ty?) (nodeJoin (uploadFolder cwd ty?) f.name)
          f.content f.name
  ∧ nodeJoin (uploadFolder cwd ty?) f.name
      = renderAbs (normSegs ((splitSegs cwd
          ++ ["public", if ty? = some "images" then "images" else "videos"])
          ++ splitSegs f.name)) := by
  refine ⟨rfl, rfl, rfl, rfl, ?_⟩
  by_cases hty : ty? = some "images"
  · rw [if_pos hty, uploadFolder, if_pos hty]
    exact nodeJoin_public_sub cwd "images" f.name ⟨by decide, by decide⟩ (by decide)
  · rw [if_neg hty, uploadFolder, if_neg hty]
    exact nodeJoin_public_sub cwd "videos" f.name ⟨by decide, by decide⟩ (by decide)

/-- Claim C7 counterexample: for a file name with no dot the claim's
reading (no extension, hence the type default image/jpeg) disagrees with
the code, which uses the whole name as the extension and serves
image/png for a file named png. -/
theorem content_type_dotless_counterexample :
    contentTypeFor "images" "png" = "image/png"
  ∧ claimContentType "images" "png" = "image/jpeg"
  ∧ contentTypeFor "images" "png" ≠ claimContentType "images" "png" := by
  refine ⟨by decide, by decide, ?_⟩
  decide

/-- Claim C7 (amended): the Content-Type of the media GET handler is
determined solely by the type parameter and the last "."-separated
component of the file name lower-cased (the whole name when it contains
no dot), via the fixed tables with the per-type defaults; the conjunction
checks every table row and both defaults. -/
theorem content_type_by_last_dot_component (ty n1 n2 : String)
    (h : lastExt n1 = lastExt n2) :
    contentTypeFor ty n1 = contentTypeFor ty n2
  ∧ (contentTypeFor "images" "photo.JpG" = "image/jpeg"
    ∧ contentTypeFor "images" "a.jpeg" = "image/jpeg"
    ∧ contentTypeFor "images" "a.png" = "image/png"
    ∧ contentTypeFor "images" "a.gif" = "image/gif"
    ∧ contentTypeFor "images" "a.webp" = "image/webp"
    ∧ contentTypeFor "images" "a.svg" = "image/svg+xml"
    ∧ contentTypeFor "images" "a.xyz" = "image/jpeg"
    ∧ contentTypeFor "videos" "a.mp4" = "video/mp4"
    ∧ contentTypeFor "videos" "a.webm" = "video/webm"
    ∧ contentTypeFor "videos" "a.OGG" = "video/ogg"
    ∧ contentTypeFor "videos" "a.mov" = "video/quicktime"
    ∧ contentTypeFor "videos" "a.xyz" = "video/mp4"
    ∧ contentTypeFor "other" "a.jpg" = "video/mp4") := by
  refine ⟨?_, by decide⟩
  unfold contentTypeFor
  rw [h]

/-- Witness for the amended claim C7 theorem: two names sharing the
lower-cased final component receive the same content type. -/
theorem content_type_by_last_dot_component_witness :
    contentTypeFor "images" "x.PNG" = contentTypeFor "images" "y.png" :=
  (content_type_by_last_dot_component "images" "x.PNG" "y.png" (by decide)).1

/-- Claim C1 counterexample: with an empty configured watermark text (the
default when NEXT_PUBLIC_WATERMARK_TEXT is unset) the image drawing
routine composites no watermark at all and the video branch renders no
overlay canvas, so a served file is displayed without any watermark. -/
theorem empty_watermark_text_draws_no_watermark :
    imageWatermarkDrawn "" 400 300 100 24 = ∅
  ∧ videoOverlayRendered "" = false := by
  constructor
  · rw [imageWatermarkDrawn, if_pos rfl]
  · decide

/-- Claim C1 (amended): when the configured watermark text is non-empty,
every image drawn to a canvas of positive dimensions has the watermark
text composited at at least one position (the canvas centre), and every
video is rendered with the watermark overlay canvas above it. -/
theorem watermark_present_when_text_configured (text : String) (w h tw fs : ℝ)
    (htext : text ≠ "") (hw : 0 < w) (hh : 0 < h) (htw : 0 ≤ tw) (hfs : 0 ≤ fs) :
    (w / 2, h / 2) ∈ imageWatermarkDrawn text w h tw fs
  ∧ videoOverlayRendered text = true := by
  constructor
  · rw [imageWatermarkDrawn, if_neg htext]
    have hx0 : wmX w tw fs 0 0 = w / 2 := by
      simp [wmX]
    have hy0 : wmY h tw fs 0 0 = h / 2 := by
      simp [wmY]
    have hsx : 0 < wmStepsX w h tw := by
      have h1 : (0 : ℝ) ≤ Real.sqrt (w * w + h * h) / (tw * 1.5) :=
        div_nonneg (Real.sqrt_nonneg _) (mul_nonneg htw (by norm_num))
      have h2 : (0 : ℤ) ≤ ⌈Real.sqrt (w * w + h * h) / (tw * 1.5)⌉ := Int.ceil_nonneg h1
      unfold wmStepsX
      linarith
    have hsy : 0 < wmStepsY w h fs := by
      have h1 : (0 : ℝ) ≤ Real.sqrt (w * w + h * h) / (fs * 2) :=
        div_nonneg (Real.sqrt_nonneg _) (mul_nonneg hfs (by norm_num))
      have h2 : (0 : ℤ) ≤ ⌈Real.sqrt (w * w + h * h) / (fs * 2)⌉ := Int.ceil_nonneg h1
      unfold wmStepsY
      linarith
    show ∃ i j : ℤ, _
    refine ⟨0, 0, by linarith, hsx, by linarith, hsy, ?_, ?_, ?_, ?_, ?_⟩
    · rw [hx0]
      linarith
    · rw [hx0]
      linarith
    · rw [hy0]
      linarith
    · rw [hy0]
      linarith
    · rw [hx0, hy0]
  · simp [videoOverlayRendered, htext]

/-- Witness for the amended claim C1 theorem, at a 400 by 300 canvas with
measured text width 100 and font size 24. -/
theorem watermark_present_when_text_configured_witness :
    ((400 : ℝ) / 2, (300 : ℝ) / 2) ∈ imageWatermarkDrawn "TMBC" 400 300 100 24
  ∧ videoOverlayRendered "TMBC" = true :=
  watermark_present_when_text_configured "TMBC" 400 300 100 24 (by decide)
    (by norm_num) (by norm_num) (by norm_num) (by norm_num)

/-- Claim C2: the watermark drawing loop is the fixed deterministic
tiling the claim describes: the set of positions it draws equals, for
every canvas width, height, measured text width and font size, the set
given by the claim's formulas, the rotation angle is -pi/4, and the
positions are a pure function of the four inputs, so two runs on the same
inputs draw the same set. -/
theorem watermark_tiling_matches_claim (w h tw fs : ℝ) :
    watermarkPositions w h tw fs = watermarkPositionsClaim w h tw fs
  ∧ wmAngle = -(Real.pi / 4) := by
  refine ⟨?_, rfl⟩
  have hX : ∀ i j : ℤ,
      w / 2 + (i : ℝ) * (1.5 * tw) * Real.cos (-(Real.pi / 4))
          - (j : ℝ) * (2 * fs) * Real.sin (-(Real.pi / 4))
        = wmX w tw fs i j := by
    intro i j
    unfold wmX wmAngle
    ring
  have hY : ∀ i j : ℤ,
      h / 2 + (i : ℝ) * (1.5 * tw) * Real.sin (-(Real.pi / 4))
          + (j : ℝ) * (2 * fs) * Real.cos (-(Real.pi / 4))
        = wmY h tw fs i j := by
    intro i j
    unfold wmY wmAngle
    ring
  have hSX : (⌈Real.sqrt (w ^ 2 + h ^ 2) / (1.5 * tw)⌉ + 2 : ℤ) = wmStepsX w h tw := by
    unfold wmStepsX
    rw [show w ^ 2 + h ^ 2 = w * w + h * h from by ring,
      show (1.5 : ℝ) * tw = tw * 1.5 from by ring]
  have hSY : (⌈Real.sqrt (w ^ 2 + h ^ 2) / (2 * fs)⌉ + 2 : ℤ) = wmStepsY w h fs := by
    unfold wmStepsY
    rw [show w ^ 2 + h ^ 2 = w * w + h * h from by ring,
      show (2 : ℝ) * fs = fs * 2 from by ring]
  unfold watermarkPositions watermarkPositionsClaim
  ext p
  simp only [Set.mem_setOf_eq, hX, hY, hSX, hSY]

/-- Claim C8 (code_bug): in non-fullSize mode drawImageToCanvas is
claimed to clamp both canvas dimensions to 800 while preserving the
displayed region's aspect ratio, but the source divides by the image
aspect ratio instead of the container aspect ratio: a 1000 by 500
container with a 100 by 200 image yields a canvas of 800 by 1600, whose
height exceeds the 800 maximum the routine's own comments promise. -/
theorem draw_dims_exceed_max_resolution :
    drawImageToCanvasDims false 100 200 1000 500 = (800, 1600)
  ∧ (800 : ℚ) < (drawImageToCanvasDims false 100 200 1000 500).2 := by
  have hd : drawImageToCanvasDims false 100 200 1000 500 = (800, 1600) := by
    unfold drawImageToCanvasDims
    norm_num
  refine ⟨hd, ?_⟩
  rw [hd]
  norm_num

/-- Claim C9: the document-level keydown handler calls preventDefault on
an event iff it is one of the five listed combinations: Ctrl+s,
Ctrl+Shift+I, F12, Ctrl+Shift+C, Ctrl+u; every other event is left
untouched. -/
theorem keydown_suppression_exact (e : KeyEvent) :
    handleKeyDown e = true ↔ suppressedCombo e := by
  rcases e with ⟨key, ctrl, shift⟩
  cases ctrl <;> cases shift <;>
    simp [handleKeyDown, suppressedCombo]

/-- Claim C10: at most one tracked video plays at a time: when
handleVideoPlay runs for a video different from the tracked one, the
previously tracked video is paused (it is no longer in the playing set)
and the new video is recorded as tracked; and after any sequence of play
events from the initial state the set of playing videos has at most one
element. -/
theorem video_play_exclusive (evs : List ℕ) (s : PlayerState) (v u : ℕ)
    (h : s.tracked = some u) (hne : u ≠ v) :
    u ∉ (handleVideoPlay v s).playing
  ∧ (handleVideoPlay v s).tracked = some v
  ∧ (runPlays evs).playing.card ≤ 1 := by
  refine ⟨?_, ?_, trackedInv_card (trackedInv_runPlays evs)⟩
  · simp [handleVideoPlay, h, hne, pauseVideo]
  · simp [handleVideoPlay]

/-- Witness for the claim C10 theorem: a state tracking video 3 receives
a play event for video 4, and a concrete sequence of play events. -/
theorem video_play_exclusive_witness :
    3 ∉ (handleVideoPlay 4 (⟨{3}, some 3⟩ : PlayerState)).playing
  ∧ (handleVideoPlay 4 (⟨{3}, some 3⟩ : PlayerState)).tracked = some 4
  ∧ (runPlays [1, 2, 1]).playing.card ≤ 1 :=
  video_play_exclusive [1, 2, 1] (⟨{3}, some 3⟩ : PlayerState) 4 3 rfl (by decide)

end TmbcMedia

